import Mathlib

/-!
Shallow embedding of the Apex Strategy Monitor backend (src/server.js).

The script keeps a fleet of strategy records, mutates each strategy's PnL
every tick with a random walk, recomputes per-strategy status and a global
multiplier, and triggers a one-shot smart-contract failover when the
aggregate PnL falls to or below a critical threshold.

Numbers are modelled as rationals.  JavaScript's `Math.random()` is modelled
as an injected stream `rand : ℕ → ℚ` of draws together with a running index:
each call to `Math.random()` consumes the next value of the stream.  A valid
stream has every value in `[0, 1)`, matching `Math.random()`.
-/

namespace ApexMonitor

/-- Per-strategy health status, the string field `status` of server.js. -/
inductive Status where
  | HEALTHY
  | WARNING
  | CRITICAL
deriving DecidableEq, Repr

/-- One strategy record, as pushed by `initStrategyFleet` (server.js:63-70). -/
structure Strategy where
  id : ℕ
  pnl : ℚ
  volatility : ℚ
  status : Status
  currentMultiplier : ℚ
  baseAllocation : ℚ
deriving DecidableEq, Repr

/-- server.js:14. -/
def MAX_SUB_STRATEGIES : ℕ := 450

/-- server.js:15. -/
def CRITICAL_LOSS_THRESHOLD_USD : ℚ := -2000

/-- A random stream is valid when every draw lies in `[0, 1)`, the range of
`Math.random()`. -/
def ValidRand (rand : ℕ → ℚ) : Prop := ∀ n, 0 ≤ rand n ∧ rand n < 1

/-- The strategy object built at index `i` of the init loop with volatility
draw `r` (server.js:63-70): `volatility = r * 0.05 + 0.01`, `pnl = 0`,
status HEALTHY, multiplier 1.0, base allocation 1000. -/
def mkStrategy (i : ℕ) (r : ℚ) : Strategy :=
  { id := i
    pnl := 0
    volatility := r * (5 / 100) + 1 / 100
    status := Status.HEALTHY
    currentMultiplier := 1
    baseAllocation := 1000 }

/-- `initStrategyFleet` (server.js:61-73), generalised over the loop bound:
the source loops `i = 1 .. MAX_SUB_STRATEGIES`, drawing one random value per
strategy for its volatility.  There is no validation of the bound: a bound of
zero simply produces an empty fleet. -/
def initStrategyFleet (count : ℕ) (rand : ℕ → ℚ) : List Strategy :=
  (List.range count).map (fun k => mkStrategy (k + 1) (rand k))

/-- The degradation guard of server.js:89: `strategy.id === 1 || strategy.id === 5`. -/
def isDegrading (i : ℕ) : Bool := i = 1 || i = 5

/-- The stochastic PnL change of server.js:85:
`(Math.random() - 0.5) * volatility * baseAllocation * currentMultiplier`,
with `r` the consumed draw. -/
def stochasticDelta (s : Strategy) (r : ℚ) : ℚ :=
  (r - 1 / 2) * s.volatility * s.baseAllocation * s.currentMultiplier

/-- The amount subtracted at server.js:90 for degrading strategies:
`Math.random() * 20`, with `r` the consumed draw. -/
def degradationDelta (r : ℚ) : ℚ := r * 20

/-- The status update of server.js:94-101 as a pure function of pnl. -/
def statusOf (p : ℚ) : Status :=
  if p < -50 then Status.CRITICAL
  else if p < -10 then Status.WARNING
  else Status.HEALTHY

/-- How many random draws one iteration of the performance loop consumes for
strategy `s`: one for the walk, plus one more for degrading ids. -/
def consumedOf (s : Strategy) : ℕ := if isDegrading s.id then 2 else 1

/-- Total number of draws the performance loop consumes over a fleet. -/
def consumedAll (fleet : List Strategy) : ℕ := (fleet.map consumedOf).sum

/-- One iteration of the loop body of `calculateStrategyPerformance`
(server.js:83-104) on strategy `s`, consuming draws starting at stream index
`idx`; returns the updated record and the next free index. -/
def stepStrategy (s : Strategy) (rand : ℕ → ℚ) (idx : ℕ) : Strategy × ℕ :=
  let pnl1 := s.pnl + stochasticDelta s (rand idx)
  let pnl2 := if isDegrading s.id then pnl1 - degradationDelta (rand (idx + 1)) else pnl1
  ({ s with pnl := pnl2, status := statusOf pnl2 }, idx + consumedOf s)

/-- The values accumulated by `calculateStrategyPerformance`: the mutated
fleet, `totalPnL`, `criticalCount`, and the next free stream index. -/
structure LoopResult where
  fleet : List Strategy
  totalPnL : ℚ
  criticalCount : ℕ
  nextIdx : ℕ
deriving DecidableEq, Repr

/-- The `for (const strategy of strategyFleet)` loop of server.js:83-104:
mutates every strategy in order, accumulating `totalPnL` and `criticalCount`. -/
def runLoop (rand : ℕ → ℚ) : List Strategy → ℕ → LoopResult
  | [], idx => ⟨[], 0, 0, idx⟩
  | s :: rest, idx =>
    let su := stepStrategy s rand idx
    let r := runLoop rand rest su.2
    ⟨su.1 :: r.fleet, su.1.pnl + r.totalPnL,
      (if su.1.status = Status.CRITICAL then 1 else 0) + r.criticalCount, r.nextIdx⟩

/-- The uniform multiplier overwrite of server.js:108 and server.js:110. -/
def setMultiplier (m : ℚ) (fleet : List Strategy) : List Strategy :=
  fleet.map (fun s => { s with currentMultiplier := m })

/-- `calculateStrategyPerformance` (server.js:79-116): run the per-strategy
loop, then the global multiplier adjustment — if `totalPnL < -500` set every
multiplier to 0.8, otherwise to 1.0. -/
def calculateStrategyPerformance (fleet : List Strategy) (rand : ℕ → ℚ) (idx : ℕ) :
    LoopResult :=
  let r := runLoop rand fleet idx
  let fleet2 := if r.totalPnL < -500 then setMultiplier (8 / 10) r.fleet
    else setMultiplier 1 r.fleet
  { r with fleet := fleet2 }

/-- The mutable globals of server.js:23-26 relevant to the failover decision,
plus a log of commit-step executions: each entry records the argument pair of
one execution of the body of `triggerSmartContractFailover` past its guard
(the commit step, server.js:38-52). -/
structure SysState where
  strategyFleet : List Strategy
  isFailoverTriggered : Bool
  currentPnL : ℚ
  commitLog : List (ℕ × ℕ)
deriving DecidableEq, Repr

/-- `triggerSmartContractFailover` (server.js:35-53): if the failover is
already triggered, return immediately; otherwise execute the commit step
(logged here with its arguments), set `isFailoverTriggered`, and stop the
monitoring loop. -/
def triggerSmartContractFailover (failingStrategyId newStrategyId : ℕ)
    (st : SysState) : SysState :=
  if st.isFailoverTriggered then st
  else
    { st with
      commitLog := st.commitLog ++ [(failingStrategyId, newStrategyId)]
      isFailoverTriggered := true }

/-- Outcome of the external commit call. -/
inductive CommitResult where
  | success
  | failure
deriving DecidableEq, Repr

/-- Modelled from the spec: the external commit call itself (the web3
transaction of `triggerSmartContractFailover`) is only a comment placeholder
in src/server.js:42-45, located before the `isFailoverTriggered = true`
assignment.  Following the spec's failure semantics, a failing commit raises
at that point, so control leaves the function before the flag assignment:
the state stays ARMED.  A successful commit continues to the flag assignment. -/
def triggerWithCommitResult (failingStrategyId newStrategyId : ℕ)
    (res : CommitResult) (st : SysState) : SysState :=
  if st.isFailoverTriggered then st
  else
    let st1 := { st with commitLog := st.commitLog ++ [(failingStrategyId, newStrategyId)] }
    match res with
    | CommitResult.failure => st1
    | CommitResult.success => { st1 with isFailoverTriggered := true }

/-- `checkForCriticalLoss` (server.js:122-127): inclusive comparison against
the threshold; on breach, fail over from strategy 1 to backup strategy 450. -/
def checkForCriticalLoss (currentPnL : ℚ) (st : SysState) : SysState :=
  if currentPnL ≤ CRITICAL_LOSS_THRESHOLD_USD then
    triggerSmartContractFailover 1 450 st
  else st

/-- `checkForCriticalLoss` with the spec-modelled fallible commit plumbed
through to the trigger. -/
def checkForCriticalLossWithCommit (res : CommitResult) (currentPnL : ℚ)
    (st : SysState) : SysState :=
  if currentPnL ≤ CRITICAL_LOSS_THRESHOLD_USD then
    triggerWithCommitResult 1 450 res st
  else st

/-- One firing of the `setInterval` callback of server.js:138-143: if the
failover has been triggered the body is skipped entirely; otherwise the
performance calculation runs, `currentPnL` is assigned, and the critical-loss
check runs.  Returns the new state and the next free random-stream index. -/
def monitoringTick (rand : ℕ → ℚ) (st : SysState) (idx : ℕ) : SysState × ℕ :=
  if st.isFailoverTriggered then (st, idx)
  else
    let r := calculateStrategyPerformance st.strategyFleet rand idx
    let st1 := { st with strategyFleet := r.fleet, currentPnL := r.totalPnL }
    (checkForCriticalLoss r.totalPnL st1, r.nextIdx)

/-- `n` consecutive firings of the monitoring callback, threading the state
and the random-stream index. -/
def runTicks (rand : ℕ → ℚ) : ℕ → SysState × ℕ → SysState × ℕ
  | 0, p => p
  | n + 1, p => runTicks rand n (monitoringTick rand p.1 p.2)

/-! ### Helper lemmas about one loop iteration -/

lemma stepStrategy_pnl (s : Strategy) (rand : ℕ → ℚ) (idx : ℕ) :
    (stepStrategy s rand idx).1.pnl =
      s.pnl + stochasticDelta s (rand idx) +
        (if isDegrading s.id then -(degradationDelta (rand (idx + 1))) else 0) := by
  simp only [stepStrategy]
  split <;> ring

lemma stepStrategy_status (s : Strategy) (rand : ℕ → ℚ) (idx : ℕ) :
    (stepStrategy s rand idx).1.status = statusOf (stepStrategy s rand idx).1.pnl := rfl

lemma stepStrategy_id (s : Strategy) (rand : ℕ → ℚ) (idx : ℕ) :
    (stepStrategy s rand idx).1.id = s.id := rfl

lemma stepStrategy_currentMultiplier (s : Strategy) (rand : ℕ → ℚ) (idx : ℕ) :
    (stepStrategy s rand idx).1.currentMultiplier = s.currentMultiplier := rfl

lemma stepStrategy_snd (s : Strategy) (rand : ℕ → ℚ) (idx : ℕ) :
    (stepStrategy s rand idx).2 = idx + consumedOf s := rfl

lemma stepStrategy_congr (s : Strategy) (r1 r2 : ℕ → ℚ) (idx : ℕ)
    (h0 : r1 idx = r2 idx)
    (h1 : isDegrading s.id = true → r1 (idx + 1) = r2 (idx + 1)) :
    stepStrategy s r1 idx = stepStrategy s r2 idx := by
  simp only [stepStrategy, h0]
  by_cases hd : isDegrading s.id
  · simp [hd, h1 hd]
  · simp [hd]

/-! ### Helper lemmas about the performance loop -/

lemma runLoop_fleet_length (rand : ℕ → ℚ) (fleet : List Strategy) (idx : ℕ) :
    (runLoop rand fleet idx).fleet.length = fleet.length := by
  induction fleet generalizing idx with
  | nil => rfl
  | cons s rest ih => simp [runLoop, ih]

lemma consumedAll_cons (s : Strategy) (rest : List Strategy) :
    consumedAll (s :: rest) = consumedOf s + consumedAll rest := by
  simp [consumedAll]

lemma one_le_consumedOf (s : Strategy) : 1 ≤ consumedOf s := by
  simp only [consumedOf]
  split <;> omega

lemma runLoop_status (rand : ℕ → ℚ) (fleet : List Strategy) (idx : ℕ) :
    ∀ s ∈ (runLoop rand fleet idx).fleet, s.status = statusOf s.pnl := by
  induction fleet generalizing idx with
  | nil => intro s hs; simp [runLoop] at hs
  | cons t rest ih =>
    intro s hs
    simp only [runLoop, List.mem_cons] at hs
    rcases hs with h | h
    · subst h; exact stepStrategy_status t rand idx
    · exact ih _ s h

lemma runLoop_criticalCount (rand : ℕ → ℚ) (fleet : List Strategy) (idx : ℕ) :
    (runLoop rand fleet idx).criticalCount =
      (runLoop rand fleet idx).fleet.countP (fun s => decide (s.status = Status.CRITICAL)) := by
  induction fleet generalizing idx with
  | nil => rfl
  | cons t rest ih =>
    simp only [runLoop, List.countP_cons, ih]
    split
    · simp_all [Nat.add_comm]
    · simp_all

lemma runLoop_getElem (rand : ℕ → ℚ) (fleet : List Strategy) (idx : ℕ) :
    ∀ (j : ℕ) (h1 : j < (runLoop rand fleet idx).fleet.length) (h2 : j < fleet.length),
      (runLoop rand fleet idx).fleet[j] =
        (stepStrategy fleet[j] rand (idx + consumedAll (fleet.take j))).1 := by
  induction fleet generalizing idx with
  | nil => intro j h1 h2; simp at h2
  | cons t rest ih =>
    intro j h1 h2
    match j with
    | 0 => simp [runLoop, consumedAll]
    | j + 1 =>
      have h2' : j < rest.length := by simpa using h2
      have h1' : j < (runLoop rand rest (idx + consumedOf t)).fleet.length := by
        rw [runLoop_fleet_length]; exact h2'
      have key := ih (idx + consumedOf t) j h1' h2'
      have harith : idx + consumedOf t + consumedAll (rest.take j) =
          idx + consumedAll ((t :: rest).take (j + 1)) := by
        simp only [List.take_succ_cons, consumedAll_cons]
        omega
      rw [harith] at key
      simp only [runLoop, stepStrategy_snd, List.getElem_cons_succ]
      exact key

lemma runLoop_congr (r1 r2 : ℕ → ℚ) (fleet : List Strategy) (idx : ℕ)
    (h : ∀ n, n < consumedAll fleet → r1 (idx + n) = r2 (idx + n)) :
    runLoop r1 fleet idx = runLoop r2 fleet idx := by
  induction fleet generalizing idx with
  | nil => rfl
  | cons t rest ih =>
    have hstep : stepStrategy t r1 idx = stepStrategy t r2 idx := by
      refine stepStrategy_congr t r1 r2 idx ?_ ?_
      · have := h 0 (by have := one_le_consumedOf t; rw [consumedAll_cons]; omega)
        simpa using this
      · intro hd
        have hc : consumedOf t = 2 := by simp [consumedOf, hd]
        exact h 1 (by rw [consumedAll_cons]; omega)
    have hrest : runLoop r1 rest (stepStrategy t r1 idx).2 =
        runLoop r2 rest (stepStrategy t r1 idx).2 := by
      refine ih ((stepStrategy t r1 idx).2) ?_
      intro n hn
      rw [stepStrategy_snd]
      have := h (consumedOf t + n) (by rw [consumedAll_cons]; omega)
      calc r1 (idx + consumedOf t + n) = r1 (idx + (consumedOf t + n)) := by ring_nf
        _ = r2 (idx + (consumedOf t + n)) := this
        _ = r2 (idx + consumedOf t + n) := by ring_nf
    simp only [runLoop, hstep, hstep ▸ hrest]

/-! ### Helper lemmas about the multiplier overwrite and the full calculation -/

lemma setMultiplier_currentMultiplier (m : ℚ) (fleet : List Strategy) :
    ∀ s ∈ setMultiplier m fleet, s.currentMultiplier = m := by
  intro s hs
  simp only [setMultiplier, List.mem_map] at hs
  obtain ⟨t, _, rfl⟩ := hs
  rfl

lemma setMultiplier_length (m : ℚ) (fleet : List Strategy) :
    (setMultiplier m fleet).length = fleet.length := by
  simp [setMultiplier]

lemma setMultiplier_getElem (m : ℚ) (fleet : List Strategy) (j : ℕ)
    (h1 : j < (setMultiplier m fleet).length) (h2 : j < fleet.length) :
    (setMultiplier m fleet)[j] = { fleet[j] with currentMultiplier := m } := by
  simp [setMultiplier]

lemma setMultiplier_pnl_status (m : ℚ) (fleet : List Strategy) :
    (setMultiplier m fleet).map (fun s => (s.pnl, s.status)) =
      fleet.map (fun s => (s.pnl, s.status)) := by
  simp [setMultiplier]

lemma calculateStrategyPerformance_fleet (fleet : List Strategy) (rand : ℕ → ℚ) (idx : ℕ) :
    (calculateStrategyPerformance fleet rand idx).fleet =
      setMultiplier
        (if (runLoop rand fleet idx).totalPnL < -500 then 8 / 10 else 1)
        (runLoop rand fleet idx).fleet := by
  simp only [calculateStrategyPerformance]
  split <;> simp_all

lemma calculateStrategyPerformance_totalPnL (fleet : List Strategy) (rand : ℕ → ℚ) (idx : ℕ) :
    (calculateStrategyPerformance fleet rand idx).totalPnL =
      (runLoop rand fleet idx).totalPnL := rfl

lemma calculateStrategyPerformance_criticalCount (fleet : List Strategy) (rand : ℕ → ℚ)
    (idx : ℕ) :
    (calculateStrategyPerformance fleet rand idx).criticalCount =
      (runLoop rand fleet idx).criticalCount := rfl

lemma calculateStrategyPerformance_nextIdx (fleet : List Strategy) (rand : ℕ → ℚ) (idx : ℕ) :
    (calculateStrategyPerformance fleet rand idx).nextIdx =
      (runLoop rand fleet idx).nextIdx := rfl

/-! ### Helper lemmas about the failover trigger and the monitoring loop -/

lemma monitoringTick_triggered (rand : ℕ → ℚ) (st : SysState) (idx : ℕ)
    (h : st.isFailoverTriggered = true) : monitoringTick rand st idx = (st, idx) := by
  simp [monitoringTick, h]

lemma runTicks_triggered (rand : ℕ → ℚ) (n : ℕ) (st : SysState) (idx : ℕ)
    (h : st.isFailoverTriggered = true) : runTicks rand n (st, idx) = (st, idx) := by
  induction n with
  | zero => rfl
  | succ n ih =>
    show runTicks rand n (monitoringTick rand st idx) = (st, idx)
    rw [monitoringTick_triggered rand st idx h]
    exact ih

/-- The commit-log invariant maintained across the process lifetime: before the
trigger the log is empty, and the log never holds more than one entry. -/
def CommitInv (st : SysState) : Prop :=
  (st.isFailoverTriggered = false → st.commitLog = []) ∧ st.commitLog.length ≤ 1

lemma checkForCriticalLoss_cases (p : ℚ) (st : SysState) :
    checkForCriticalLoss p st = st ∨
      (st.isFailoverTriggered = false ∧ p ≤ CRITICAL_LOSS_THRESHOLD_USD ∧
        (checkForCriticalLoss p st).isFailoverTriggered = true ∧
        (checkForCriticalLoss p st).commitLog = st.commitLog ++ [(1, 450)]) := by
  unfold checkForCriticalLoss triggerSmartContractFailover
  by_cases hp : p ≤ CRITICAL_LOSS_THRESHOLD_USD
  · by_cases ht : st.isFailoverTriggered
    · left; simp [hp, ht]
    · right
      have hb : st.isFailoverTriggered = false := by simpa using ht
      simp [hp, hb]
  · left; simp [hp]

lemma monitoringTick_inv (rand : ℕ → ℚ) (st : SysState) (idx : ℕ)
    (h : CommitInv st) : CommitInv (monitoringTick rand st idx).1 := by
  by_cases ht : st.isFailoverTriggered
  · rw [monitoringTick_triggered rand st idx ht]
    exact h
  · have hb : st.isFailoverTriggered = false := by simpa using ht
    have hlog : st.commitLog = [] := h.1 hb
    simp only [monitoringTick, hb, Bool.false_eq_true, if_false]
    rcases checkForCriticalLoss_cases
        (calculateStrategyPerformance st.strategyFleet rand idx).totalPnL
        { strategyFleet := (calculateStrategyPerformance st.strategyFleet rand idx).fleet
          isFailoverTriggered := false
          currentPnL := (calculateStrategyPerformance st.strategyFleet rand idx).totalPnL
          commitLog := st.commitLog }
      with hc | hc
    · rw [hc]
      exact ⟨fun _ => hlog, by rw [hlog]; simp⟩
    · refine ⟨fun hf => ?_, ?_⟩
      · rw [hc.2.2.1] at hf
        cases hf
      · rw [hc.2.2.2]
        simp [hlog]

lemma runTicks_inv (rand : ℕ → ℚ) (n : ℕ) :
    ∀ p : SysState × ℕ, CommitInv p.1 → CommitInv (runTicks rand n p).1 := by
  induction n with
  | zero => intro p h; exact h
  | succ n ih =>
    intro p h
    exact ih (monitoringTick rand p.1 p.2) (monitoringTick_inv rand p.1 p.2 h)

/-! ### Concrete fixtures used by witnesses and counterexamples -/

/-- A random stream that always draws one half. -/
def halfRand : ℕ → ℚ := fun _ => 1 / 2

/-- A random stream agreeing with `halfRand` on the first two draws only. -/
def otherRand : ℕ → ℚ := fun n => if n < 2 then 1 / 2 else 0

/-- A stream drawing one half first and then zero: `Math.random()` returning 0
is a legal outcome. -/
def zeroAfterFirst : ℕ → ℚ := fun n => if n = 0 then 1 / 2 else 0

/-- The strategy record built with a volatility draw of one half. -/
def strategyOne : Strategy := mkStrategy 1 (1 / 2)

/-- A one-strategy fleet holding the degrading strategy with id 1. -/
def fleetOne : List Strategy := [strategyOne]

/-- The fresh system state: empty fleet, failover armed, no commit yet. -/
def armedState : SysState :=
  { strategyFleet := [], isFailoverTriggered := false, currentPnL := 0, commitLog := [] }

/-- A state after the failover fired: flag set, one commit executed. -/
def firedState : SysState :=
  { strategyFleet := [], isFailoverTriggered := true, currentPnL := -2500
    commitLog := [(1, 450)] }

/-! ### Claim theorems -/

/-- Claim C1: the commit step of `triggerSmartContractFailover` runs at most
once per process: from any state satisfying the startup invariant (no commit
before the trigger, at most one commit logged), any number of ticks leaves at
most one commit in the log; and once the state is TRIGGERED, further ticks
perform no commit invocation and leave the state TRIGGERED. -/
theorem commit_at_most_once (rand : ℕ → ℚ) (st : SysState) (idx n : ℕ)
    (h0 : st.isFailoverTriggered = false → st.commitLog = [])
    (h1 : st.commitLog.length ≤ 1) :
    (runTicks rand n (st, idx)).1.commitLog.length ≤ 1 ∧
      (st.isFailoverTriggered = true →
        (runTicks rand n (st, idx)).1.isFailoverTriggered = true ∧
        (runTicks rand n (st, idx)).1.commitLog = st.commitLog) := by
  refine ⟨(runTicks_inv rand n (st, idx) ⟨h0, h1⟩).2, fun ht => ?_⟩
  rw [runTicks_triggered rand n st idx ht]
  exact ⟨ht, rfl⟩

/-- Witness for C1 at a concrete triggered state and three further ticks. -/
theorem commit_at_most_once_witness :
    (runTicks halfRand 3 (firedState, 0)).1.commitLog.length ≤ 1 ∧
    (runTicks halfRand 3 (firedState, 0)).1.isFailoverTriggered = true ∧
    (runTicks halfRand 3 (firedState, 0)).1.commitLog = firedState.commitLog := by
  have h := commit_at_most_once halfRand firedState 0 3
    (fun hf => by simp [firedState] at hf) (by decide)
  exact ⟨h.1, (h.2 rfl).1, (h.2 rfl).2⟩

/-- Claim C2: with the spec-modelled fallible commit, an ARMED evaluation at or
below the critical threshold whose commit fails leaves the state ARMED, and a
subsequent evaluation can retry and succeed. -/
theorem commit_failure_stays_armed (p : ℚ) (st : SysState)
    (h : st.isFailoverTriggered = false) (hp : p ≤ CRITICAL_LOSS_THRESHOLD_USD) :
    (checkForCriticalLossWithCommit CommitResult.failure p st).isFailoverTriggered = false ∧
    (checkForCriticalLossWithCommit CommitResult.success p
        (checkForCriticalLossWithCommit CommitResult.failure p st)).isFailoverTriggered
      = true := by
  constructor
  · simp [checkForCriticalLossWithCommit, triggerWithCommitResult, hp, h]
  · simp [checkForCriticalLossWithCommit, triggerWithCommitResult, hp, h]

/-- Witness for C2 at `totalPnL = -2500` from the fresh state. -/
theorem commit_failure_stays_armed_witness :
    (checkForCriticalLossWithCommit CommitResult.failure (-2500) armedState).isFailoverTriggered
        = false ∧
    (checkForCriticalLossWithCommit CommitResult.success (-2500)
        (checkForCriticalLossWithCommit CommitResult.failure (-2500)
          armedState)).isFailoverTriggered = true :=
  commit_failure_stays_armed (-2500) armedState rfl (by decide)

/-- Claim C3: from the ARMED state the failover fires exactly when
`totalPnL ≤ CRITICAL_LOSS_THRESHOLD_USD` (inclusive): at or below the
threshold the state becomes TRIGGERED with one commit appended; strictly above
it the evaluation changes nothing. -/
theorem threshold_inclusive_iff (p : ℚ) (st : SysState)
    (h : st.isFailoverTriggered = false) :
    ((checkForCriticalLoss p st).isFailoverTriggered = true ↔
        p ≤ CRITICAL_LOSS_THRESHOLD_USD) ∧
    (p ≤ CRITICAL_LOSS_THRESHOLD_USD →
        (checkForCriticalLoss p st).isFailoverTriggered = true ∧
        (checkForCriticalLoss p st).commitLog = st.commitLog ++ [(1, 450)]) ∧
    (CRITICAL_LOSS_THRESHOLD_USD < p → checkForCriticalLoss p st = st) := by
  refine ⟨⟨fun hf => ?_, fun hp => ?_⟩, fun hp => ?_, fun hp => ?_⟩
  · by_contra hp
    rw [not_le] at hp
    simp [checkForCriticalLoss, not_le.mpr hp, h] at hf
  · simp [checkForCriticalLoss, triggerSmartContractFailover, hp, h]
  · constructor
    · simp [checkForCriticalLoss, triggerSmartContractFailover, hp, h]
    · simp [checkForCriticalLoss, triggerSmartContractFailover, hp, h]
  · simp [checkForCriticalLoss, not_le.mpr hp]

/-- Witness for C3 at the exact boundary `-2000` and one unit above it. -/
theorem threshold_inclusive_iff_witness :
    (checkForCriticalLoss (-2000) armedState).isFailoverTriggered = true ∧
    (checkForCriticalLoss (-2000) armedState).commitLog = armedState.commitLog ++ [(1, 450)] ∧
    checkForCriticalLoss (-1999) armedState = armedState := by
  have hAt := (threshold_inclusive_iff (-2000) armedState rfl).2.1 (by decide)
  have hAbove := (threshold_inclusive_iff (-1999) armedState rfl).2.2 (by decide)
  exact ⟨hAt.1, hAt.2, hAbove⟩

/-- Claim C4: whenever the failover fires from ARMED, exactly one commit is
appended to the log and its arguments are the configured pair: failing
strategy 1, backup strategy 450. -/
theorem commit_args_configured (p : ℚ) (st : SysState)
    (h : st.isFailoverTriggered = false) (hp : p ≤ CRITICAL_LOSS_THRESHOLD_USD) :
    (checkForCriticalLoss p st).commitLog = st.commitLog ++ [(1, 450)] := by
  simp [checkForCriticalLoss, triggerSmartContractFailover, hp, h]

/-- Witness for C4 at `totalPnL = -2500` from the fresh state. -/
theorem commit_args_configured_witness :
    (checkForCriticalLoss (-2500) armedState).commitLog = armedState.commitLog ++ [(1, 450)] :=
  commit_args_configured (-2500) armedState rfl (by decide)

/-- Claim C10: once the failover is TRIGGERED, every further tick is skipped
entirely: the whole state — fleet, currentPnL, flags and log — is unchanged
after any number of ticks. -/
theorem triggered_frame (rand : ℕ → ℚ) (st : SysState) (idx n : ℕ)
    (h : st.isFailoverTriggered = true) :
    runTicks rand n (st, idx) = (st, idx) ∧
    (runTicks rand n (st, idx)).1.strategyFleet = st.strategyFleet ∧
    (runTicks rand n (st, idx)).1.currentPnL = st.currentPnL := by
  have he := runTicks_triggered rand n st idx h
  rw [he]
  exact ⟨rfl, rfl, rfl⟩

/-- Witness for C10 at a concrete triggered state and two further ticks. -/
theorem triggered_frame_witness :
    runTicks halfRand 2 (firedState, 0) = (firedState, 0) :=
  (triggered_frame halfRand firedState 0 2 rfl).1

lemma statusOf_spec (p : ℚ) :
    (statusOf p = Status.CRITICAL ↔ p < -50) ∧
    (statusOf p = Status.WARNING ↔ -50 ≤ p ∧ p < -10) ∧
    (statusOf p = Status.HEALTHY ↔ -10 ≤ p) := by
  unfold statusOf
  split_ifs with h1 h2 <;> refine ⟨?_, ?_, ?_⟩ <;> simp_all <;> try linarith

/-- The one-strategy fleet after one tick driven by `halfRand`: the stochastic
delta is zero and the degradation step subtracts 10. -/
def strategyOneOut : Strategy :=
  { id := 1, pnl := -10, volatility := 7 / 200, status := Status.HEALTHY
    currentMultiplier := 1, baseAllocation := 1000 }

lemma calcOne :
    calculateStrategyPerformance fleetOne halfRand 0 =
      { fleet := [strategyOneOut], totalPnL := -10, criticalCount := 0, nextIdx := 2 } := by
  norm_num [calculateStrategyPerformance, runLoop, stepStrategy, fleetOne, strategyOne,
    mkStrategy, halfRand, stochasticDelta, degradationDelta, isDegrading, statusOf,
    consumedOf, setMultiplier, strategyOneOut]
  decide

/-- Claim C5: after every tick's aggregation each strategy's status equals the
pure threshold function of its current pnl (CRITICAL below -50, WARNING in
[-50, -10), HEALTHY otherwise), and `criticalCount` equals the number of
strategies whose status is CRITICAL. -/
theorem status_consistency (fleet : List Strategy) (rand : ℕ → ℚ) (idx : ℕ) :
    (∀ s ∈ (calculateStrategyPerformance fleet rand idx).fleet,
        s.status = statusOf s.pnl) ∧
    (calculateStrategyPerformance fleet rand idx).criticalCount =
      (calculateStrategyPerformance fleet rand idx).fleet.countP
        (fun s => decide (s.status = Status.CRITICAL)) ∧
    ∀ p : ℚ, (statusOf p = Status.CRITICAL ↔ p < -50) ∧
      (statusOf p = Status.WARNING ↔ -50 ≤ p ∧ p < -10) ∧
      (statusOf p = Status.HEALTHY ↔ -10 ≤ p) := by
  refine ⟨?_, ?_, statusOf_spec⟩
  · intro s hs
    rw [calculateStrategyPerformance_fleet] at hs
    simp only [setMultiplier, List.mem_map] at hs
    obtain ⟨t, ht, rfl⟩ := hs
    exact runLoop_status rand fleet idx t ht
  · rw [calculateStrategyPerformance_criticalCount, calculateStrategyPerformance_fleet,
      runLoop_criticalCount]
    simp only [setMultiplier, List.countP_map]
    rfl

/-- Witness for C5 on the one-strategy fleet after a concrete tick. -/
theorem status_consistency_witness :
    strategyOneOut.status = statusOf strategyOneOut.pnl ∧
    (calculateStrategyPerformance fleetOne halfRand 0).criticalCount =
      (calculateStrategyPerformance fleetOne halfRand 0).fleet.countP
        (fun s => decide (s.status = Status.CRITICAL)) :=
  ⟨(status_consistency fleetOne halfRand 0).1 strategyOneOut (by simp [calcOne]),
   (status_consistency fleetOne halfRand 0).2.1⟩

lemma calculateStrategyPerformance_getElem (fleet : List Strategy) (rand : ℕ → ℚ)
    (idx j : ℕ) (h2 : j < fleet.length)
    (h1 : j < (calculateStrategyPerformance fleet rand idx).fleet.length) :
    (calculateStrategyPerformance fleet rand idx).fleet[j] =
      { (stepStrategy fleet[j] rand (idx + consumedAll (fleet.take j))).1 with
        currentMultiplier :=
          if (runLoop rand fleet idx).totalPnL < -500 then 8 / 10 else 1 } := by
  have hr : j < (runLoop rand fleet idx).fleet.length := by
    rw [runLoop_fleet_length]; exact h2
  have hget := runLoop_getElem rand fleet idx j hr h2
  simp only [calculateStrategyPerformance]
  split_ifs with hcond <;>
    simp only [setMultiplier, List.getElem_map, hget]

/-- Claim C6: after every tick's aggregation every strategy's multiplier is
uniformly 0.8 when the tick's totalPnL is below -500 and uniformly 1.0
otherwise, and the multiplier is only read during this tick's PnL mutation:
each strategy's new pnl is its old pnl plus a stochastic delta shaped by the
strategy's PRE-tick multiplier (plus the degradation term for degrading ids),
so the write only shapes the next tick's delta. -/
theorem multiplier_policy (fleet : List Strategy) (rand : ℕ → ℚ) (idx : ℕ) :
    (∀ s ∈ (calculateStrategyPerformance fleet rand idx).fleet,
        s.currentMultiplier =
          if (calculateStrategyPerformance fleet rand idx).totalPnL < -500 then 8 / 10
          else 1) ∧
    (∀ (j : ℕ), ∀ h2 : j < fleet.length,
        ∀ h1 : j < (calculateStrategyPerformance fleet rand idx).fleet.length,
        ((calculateStrategyPerformance fleet rand idx).fleet[j]).pnl =
          fleet[j].pnl
            + stochasticDelta fleet[j] (rand (idx + consumedAll (fleet.take j)))
            + (if isDegrading (fleet[j]).id then
                -(degradationDelta (rand (idx + consumedAll (fleet.take j) + 1)))
              else 0)) := by
  constructor
  · intro s hs
    rw [calculateStrategyPerformance_fleet] at hs
    rw [calculateStrategyPerformance_totalPnL]
    exact setMultiplier_currentMultiplier _ _ s hs
  · intro j h2 h1
    rw [calculateStrategyPerformance_getElem fleet rand idx j h2 h1]
    have hproj : ({ (stepStrategy fleet[j] rand (idx + consumedAll (fleet.take j))).1 with
        currentMultiplier :=
          if (runLoop rand fleet idx).totalPnL < -500 then 8 / 10 else 1 }).pnl
        = (stepStrategy fleet[j] rand (idx + consumedAll (fleet.take j))).1.pnl := rfl
    rw [hproj, stepStrategy_pnl]

/-- Witness for C6 on the one-strategy fleet after a concrete tick. -/
theorem multiplier_policy_witness :
    strategyOneOut.currentMultiplier =
      (if (calculateStrategyPerformance fleetOne halfRand 0).totalPnL < -500 then 8 / 10
       else 1) ∧
    ((calculateStrategyPerformance fleetOne halfRand 0).fleet.get
        ⟨0, by rw [calcOne]; decide⟩).pnl =
      (fleetOne.get ⟨0, by decide⟩).pnl
        + stochasticDelta (fleetOne.get ⟨0, by decide⟩)
            (halfRand (0 + consumedAll (fleetOne.take 0)))
        + (if isDegrading (fleetOne.get ⟨0, by decide⟩).id then
            -(degradationDelta (halfRand (0 + consumedAll (fleetOne.take 0) + 1)))
          else 0) := by
  refine ⟨(multiplier_policy fleetOne halfRand 0).1 strategyOneOut (by simp [calcOne]), ?_⟩
  exact (multiplier_policy fleetOne halfRand 0).2 0 (by decide) (by rw [calcOne]; decide)

/-- Claim C7 as stated is false: `Math.random()` can return 0, in which case
the additional perturbation applied to the degrading strategies (ids 1 and 5)
is `-(0 * 20) = 0`, which is not strictly negative.  Concretely, with a valid
stream drawing 0 for the degradation draw, strategy 1's pnl after the step
equals its pnl plus the stochastic delta alone — no strict decrease. -/
theorem degradation_counterexample :
    ValidRand zeroAfterFirst ∧
    isDegrading strategyOne.id = true ∧
    (stepStrategy strategyOne zeroAfterFirst 0).1.pnl =
      strategyOne.pnl + stochasticDelta strategyOne (zeroAfterFirst 0) ∧
    ¬ (-(degradationDelta (zeroAfterFirst 1)) < 0) ∧
    ¬ ((stepStrategy strategyOne zeroAfterFirst 0).1.pnl <
        strategyOne.pnl + stochasticDelta strategyOne (zeroAfterFirst 0)) := by
  refine ⟨fun n => ?_,
    by decide,
    by norm_num [stepStrategy, strategyOne, mkStrategy, zeroAfterFirst, stochasticDelta,
      degradationDelta, isDegrading, statusOf],
    by norm_num [degradationDelta, zeroAfterFirst],
    by norm_num [stepStrategy, strategyOne, mkStrategy, zeroAfterFirst, stochasticDelta,
      degradationDelta, isDegrading, statusOf]⟩
  unfold zeroAfterFirst
  split <;> norm_num

/-- Claim C7 amended: on every tick, each degrading strategy (ids 1 and 5)
receives an additional non-positive perturbation, strictly negative whenever
the consumed draw is strictly positive (`Math.random()` returns values in
`[0, 1)`, so a zero draw gives a zero perturbation). -/
theorem degradation_amended (s : Strategy) (rand : ℕ → ℚ) (idx : ℕ)
    (hd : isDegrading s.id = true) (h0 : 0 ≤ rand (idx + 1)) :
    (stepStrategy s rand idx).1.pnl ≤ s.pnl + stochasticDelta s (rand idx) ∧
    (0 < rand (idx + 1) →
      (stepStrategy s rand idx).1.pnl < s.pnl + stochasticDelta s (rand idx)) := by
  rw [stepStrategy_pnl, hd]
  simp only [if_true, degradationDelta]
  constructor
  · linarith
  · intro hpos
    linarith

/-- Witness for the amended C7 with a strictly positive draw. -/
theorem degradation_amended_witness :
    (stepStrategy strategyOne halfRand 0).1.pnl ≤
      strategyOne.pnl + stochasticDelta strategyOne (halfRand 0) ∧
    (stepStrategy strategyOne halfRand 0).1.pnl <
      strategyOne.pnl + stochasticDelta strategyOne (halfRand 0) := by
  have h := degradation_amended strategyOne halfRand 0 (by decide) (by norm_num [halfRand])
  exact ⟨h.1, h.2 (by norm_num [halfRand])⟩

/-- Claim C8 as stated is false: `initStrategyFleet` performs no validation of
the fleet size and has no error path at all; with the loop bound generalised,
a bound of 0 simply creates an empty fleet and the monitoring loop still
starts — no ConfigurationError exists anywhere in the program. -/
theorem fleet_size_counterexample : initStrategyFleet 0 halfRand = [] := rfl

/-- Claim C8 amended: initialization cannot fail — a non-positive count yields
an empty fleet without error; for every positive count it creates exactly
`count` strategies, each with pnl 0, status HEALTHY, multiplier 1.0, base
allocation 1000, and volatility in `[1%, 6%)`. -/
theorem fleet_size_amended (count : ℕ) (rand : ℕ → ℚ)
    (_hc : 0 < count) (hr : ValidRand rand) :
    (initStrategyFleet count rand).length = count ∧
    ∀ s ∈ initStrategyFleet count rand,
      s.pnl = 0 ∧ s.status = Status.HEALTHY ∧ s.currentMultiplier = 1 ∧
      s.baseAllocation = 1000 ∧ 1 / 100 ≤ s.volatility ∧ s.volatility < 6 / 100 := by
  refine ⟨by simp [initStrategyFleet], ?_⟩
  intro s hs
  simp only [initStrategyFleet, List.mem_map, List.mem_range] at hs
  obtain ⟨k, hk, rfl⟩ := hs
  obtain ⟨hr0, hr1⟩ := hr k
  refine ⟨rfl, rfl, rfl, rfl, ?_, ?_⟩
  · simp only [mkStrategy]
    linarith
  · simp only [mkStrategy]
    linarith

/-- Witness for the amended C8 at count 3 with the constant half stream. -/
theorem fleet_size_amended_witness :
    (initStrategyFleet 3 halfRand).length = 3 ∧
    ∀ s ∈ initStrategyFleet 3 halfRand,
      s.pnl = 0 ∧ s.status = Status.HEALTHY ∧ s.currentMultiplier = 1 ∧
      s.baseAllocation = 1000 ∧ 1 / 100 ≤ s.volatility ∧ s.volatility < 6 / 100 :=
  fleet_size_amended 3 halfRand (by decide) (fun n => by unfold halfRand; norm_num)

/-- Claim C9: the tick pipeline is a deterministic function of the fleet state
and the random source's output sequence: two runs whose sources agree on the
draws the loop consumes produce identical results — same mutated fleet, same
totalPnL, same criticalCount. -/
theorem tick_deterministic (fleet : List Strategy) (r1 r2 : ℕ → ℚ) (idx : ℕ)
    (h : ∀ n, n < consumedAll fleet → r1 (idx + n) = r2 (idx + n)) :
    calculateStrategyPerformance fleet r1 idx = calculateStrategyPerformance fleet r2 idx := by
  unfold calculateStrategyPerformance
  rw [runLoop_congr r1 r2 fleet idx h]

/-- Witness for C9: two streams agreeing on the two consumed draws only. -/
theorem tick_deterministic_witness :
    calculateStrategyPerformance fleetOne halfRand 0 =
      calculateStrategyPerformance fleetOne otherRand 0 := by
  refine tick_deterministic fleetOne halfRand otherRand 0 ?_
  intro n hn
  have h2 : consumedAll fleetOne = 2 := by decide
  rw [h2] at hn
  unfold halfRand otherRand
  rw [if_pos (by omega)]

end ApexMonitor
